import Mathlib

/-!
Verification of the download discovery and monitoring subsystem of the
NASA Solar Image Downloader (Python).  The Python sources under
`src/src/downloader`, `src/src/storage` and `src/src/scheduler` are shallowly
embedded below: pure functions become Lean functions, stateful methods become
explicit state passing, HTTP and the filesystem become explicit oracles and
association lists, and the observable effects that the specification talks
about (requests issued, back-off sleeps, rate-limit enforcements) are returned
as explicit traces.
-/

namespace SolarDL

/-! ## Calendar model (Python `datetime`)

Python `datetime.datetime` values are modelled by their calendar date
(year, month, day) plus the time of day in seconds.  The calendar is the
proleptic Gregorian calendar that Python uses; the year is kept as an
unbounded `Int` (Python restricts years to 1..9999 and raises
`OverflowError` outside that range; the extreme-year overflow is not
modelled, theorems that depend on Python's year range state it as a
hypothesis).  Validity of the month/day/time fields is part of the
structure, exactly as Python's `datetime` constructor enforces it. -/

/-- Leap-year test of the proleptic Gregorian calendar (as in Python's
`calendar.isleap`). -/
def isLeapYear (y : Int) : Bool :=
  (y % 4 == 0 && y % 100 != 0) || (y % 400 == 0)

/-- Number of days in a month of a given year. -/
def daysInMonth (y : Int) (m : Nat) : Nat :=
  if m = 2 then (if isLeapYear y then 29 else 28)
  else if m = 4 ∨ m = 6 ∨ m = 9 ∨ m = 11 then 30
  else 31

theorem daysInMonth_pos (y : Int) (m : Nat) : 1 ≤ daysInMonth y m := by
  unfold daysInMonth
  split
  · split <;> omega
  · split <;> omega

theorem daysInMonth_le (y : Int) (m : Nat) : daysInMonth y m ≤ 31 := by
  unfold daysInMonth
  split
  · split <;> omega
  · split <;> omega

/-- A Python `datetime.datetime` value: a valid proleptic-Gregorian calendar
date together with the time of day (`tod`, in whole seconds; sub-second
precision is irrelevant to every property proved here). -/
structure PyDateTime where
  year : Int
  month : Nat
  day : Nat
  tod : Nat
  month_ge : 1 ≤ month
  month_le : month ≤ 12
  day_ge : 1 ≤ day
  day_le : day ≤ daysInMonth year month
  tod_lt : tod < 86400

theorem PyDateTime.ext_fields (a b : PyDateTime)
    (hy : a.year = b.year) (hm : a.month = b.month)
    (hd : a.day = b.day) (ht : a.tod = b.tod) : a = b := by
  cases a; cases b
  simp only at hy hm hd ht
  subst hy; subst hm; subst hd; subst ht
  rfl

instance : DecidableEq PyDateTime := fun a b =>
  if h : a.year = b.year ∧ a.month = b.month ∧ a.day = b.day ∧ a.tod = b.tod then
    isTrue (PyDateTime.ext_fields a b h.1 h.2.1 h.2.2.1 h.2.2.2)
  else
    isFalse (fun he => h (by subst he; exact ⟨rfl, rfl, rfl, rfl⟩))

/-- Build a datetime at midnight from a valid (year, month, day) triple. -/
def mkDate (y : Int) (m d : Nat) (hm : 1 ≤ m ∧ m ≤ 12)
    (hd : 1 ≤ d ∧ d ≤ daysInMonth y m) : PyDateTime :=
  ⟨y, m, d, 0, hm.1, hm.2, hd.1, hd.2, by omega⟩

/-- Adding `timedelta(days=1)` to a Python datetime: the next calendar day,
with the time of day unchanged. -/
def nextDay (dt : PyDateTime) : PyDateTime :=
  if h : dt.day < daysInMonth dt.year dt.month then
    { dt with day := dt.day + 1, day_ge := (by omega), day_le := h }
  else if h2 : dt.month < 12 then
    { dt with
      month := dt.month + 1
      day := 1
      month_ge := (by omega)
      month_le := h2
      day_ge := le_refl 1
      day_le := daysInMonth_pos _ _ }
  else
    { dt with
      year := dt.year + 1
      month := 1
      day := 1
      month_ge := le_refl 1
      month_le := (by omega)
      day_ge := le_refl 1
      day_le := daysInMonth_pos _ _ }

/-- Subtracting `timedelta(days=1)` from a Python datetime: the previous
calendar day, with the time of day unchanged. -/
def prevDay (dt : PyDateTime) : PyDateTime :=
  if h : 1 < dt.day then
    { dt with
      day := dt.day - 1
      day_ge := (by omega)
      day_le := (by have := dt.day_le; omega) }
  else if h2 : 1 < dt.month then
    { dt with
      month := dt.month - 1
      day := daysInMonth dt.year (dt.month - 1)
      month_ge := (by omega)
      month_le := (by have := dt.month_le; omega)
      day_ge := daysInMonth_pos _ _
      day_le := le_refl _ }
  else
    { dt with
      year := dt.year - 1
      month := 12
      day := 31
      month_ge := (by omega)
      month_le := le_refl 12
      day_ge := (by omega)
      day_le := (by unfold daysInMonth; norm_num) }

/-- Subtracting `timedelta(days=k)`: iterated `prevDay`. -/
def subDays (k : Nat) (dt : PyDateTime) : PyDateTime :=
  match k with
  | 0 => dt
  | k + 1 => prevDay (subDays k dt)

/-- Python's comparison of `datetime` values: lexicographic on
(year, month, day, time of day). -/
def pyLe (a b : PyDateTime) : Bool :=
  a.year < b.year ||
    (a.year == b.year &&
      (a.month < b.month ||
        (a.month == b.month &&
          (a.day < b.day || (a.day == b.day && a.tod ≤ b.tod)))))

theorem nextDay_prevDay (dt : PyDateTime) : nextDay (prevDay dt) = dt := by
  have hd1 := dt.day_ge
  have hd2 := dt.day_le
  have hm1 := dt.month_ge
  have hm2 := dt.month_le
  unfold prevDay
  by_cases h : 1 < dt.day
  · rw [dif_pos h]
    unfold nextDay
    rw [dif_pos (show dt.day - 1 < daysInMonth dt.year dt.month from by omega)]
    exact PyDateTime.ext_fields _ _ rfl rfl
      (show dt.day - 1 + 1 = dt.day from by omega) rfl
  · rw [dif_neg h]
    by_cases h2 : 1 < dt.month
    · rw [dif_pos h2]
      unfold nextDay
      rw [dif_neg (show ¬(daysInMonth dt.year (dt.month - 1) <
            daysInMonth dt.year (dt.month - 1)) from by omega)]
      rw [dif_pos (show dt.month - 1 < 12 from by omega)]
      exact PyDateTime.ext_fields _ _ rfl
        (show dt.month - 1 + 1 = dt.month from by omega)
        (show 1 = dt.day from by omega) rfl
    · rw [dif_neg h2]
      unfold nextDay
      have h31 : daysInMonth (dt.year - 1) 12 = 31 := by
        unfold daysInMonth; norm_num
      rw [dif_neg (show ¬(31 < daysInMonth (dt.year - 1) 12) from by omega)]
      rw [dif_neg (show ¬(12 < 12) from by omega)]
      exact PyDateTime.ext_fields _ _
        (show dt.year - 1 + 1 = dt.year from by omega)
        (show 1 = dt.month from by omega)
        (show 1 = dt.day from by omega) rfl

/-- Auxiliary linear rank on datetimes: strictly monotone along the calendar
order for valid dates; used only as a termination measure. -/
def dayRank (dt : PyDateTime) : Int :=
  372 * dt.year + 31 * (dt.month : Int) + (dt.day : Int)

theorem dayRank_lt_nextDay (dt : PyDateTime) : dayRank dt < dayRank (nextDay dt) := by
  have hd2 := dt.day_le
  have h31 := daysInMonth_le dt.year dt.month
  have hm2 := dt.month_le
  unfold nextDay
  split
  · show dayRank dt < 372 * dt.year + 31 * (dt.month : Int) + ((dt.day + 1 : Nat) : Int)
    unfold dayRank; push_cast; omega
  · split
    · show dayRank dt < 372 * dt.year + 31 * ((dt.month + 1 : Nat) : Int) + ((1 : Nat) : Int)
      unfold dayRank; push_cast; omega
    · show dayRank dt < 372 * (dt.year + 1) + 31 * ((1 : Nat) : Int) + ((1 : Nat) : Int)
      unfold dayRank; push_cast; omega

theorem dayRank_le_of_pyLe (a b : PyDateTime) (h : pyLe a b = true) :
    dayRank a ≤ dayRank b := by
  have ha1 := a.month_le
  have ha2 : a.day ≤ 31 := le_trans a.day_le (daysInMonth_le _ _)
  have hb1 := b.month_ge
  have hb2 := b.day_ge
  have ha3 := a.month_ge
  have ha4 := a.day_ge
  have hb3 := b.month_le
  have hb4 : b.day ≤ 31 := le_trans b.day_le (daysInMonth_le _ _)
  unfold pyLe at h
  simp only [Bool.or_eq_true, Bool.and_eq_true, decide_eq_true_eq, beq_iff_eq] at h
  unfold dayRank
  rcases h with h | ⟨hy, h⟩
  · omega
  · rcases h with h | ⟨hm, h⟩
    · rw [hy]; omega
    · rcases h with h | ⟨hd, _⟩
      · rw [hy, hm]; omega
      · rw [hy, hm, hd]

/-- The shared shape of the `while current_date <= end_date` loops in
`URLGenerator.generate_date_range_urls` and
`MonitoringLoop._check_for_new_images`: collect `gen current` for each day
from `current` up to `e` inclusive, stepping one day at a time. -/
def collectDays (gen : PyDateTime → List String) (current e : PyDateTime) :
    List String :=
  if h : pyLe current e = true then
    gen current ++ collectDays gen (nextDay current) e
  else
    []
termination_by (dayRank e + 1 - dayRank current).toNat
decreasing_by
  have h1 := dayRank_le_of_pyLe current e h
  have h2 := dayRank_lt_nextDay current
  omega

theorem pyLe_iff (a b : PyDateTime) : pyLe a b = true ↔
    (a.year < b.year ∨ (a.year = b.year ∧
      (a.month < b.month ∨ (a.month = b.month ∧
        (a.day < b.day ∨ (a.day = b.day ∧ a.tod ≤ b.tod)))))) := by
  unfold pyLe
  simp [Bool.or_eq_true, Bool.and_eq_true, decide_eq_true_eq, beq_iff_eq]

theorem pyLe_refl (a : PyDateTime) : pyLe a a = true := by
  rw [pyLe_iff]; omega

theorem pyLe_trans (a b c : PyDateTime) (h1 : pyLe a b = true)
    (h2 : pyLe b c = true) : pyLe a c = true := by
  rw [pyLe_iff] at h1 h2 ⊢; omega

theorem nextDay_tod (dt : PyDateTime) : (nextDay dt).tod = dt.tod := by
  unfold nextDay
  split
  · rfl
  · split <;> rfl

theorem prevDay_tod (dt : PyDateTime) : (prevDay dt).tod = dt.tod := by
  unfold prevDay
  split
  · rfl
  · split <;> rfl

theorem dayRank_prevDay_lt (dt : PyDateTime) : dayRank (prevDay dt) < dayRank dt := by
  have hd1 := dt.day_ge
  have hm1 := dt.month_ge
  have h31 := daysInMonth_le dt.year (dt.month - 1)
  unfold prevDay
  split
  · show 372 * dt.year + 31 * (dt.month : Int) + ((dt.day - 1 : Nat) : Int) < dayRank dt
    unfold dayRank; omega
  · split
    · show 372 * dt.year + 31 * ((dt.month - 1 : Nat) : Int) +
        ((daysInMonth dt.year (dt.month - 1) : Nat) : Int) < dayRank dt
      unfold dayRank; omega
    · show 372 * (dt.year - 1) + 31 * ((12 : Nat) : Int) + ((31 : Nat) : Int) < dayRank dt
      unfold dayRank; omega

/-- For valid dates, Python's lexicographic `datetime` order agrees with the
order of `dayRank` refined by the time of day. -/
theorem pyLe_iff_rank (a b : PyDateTime) : pyLe a b = true ↔
    (dayRank a < dayRank b ∨ (dayRank a = dayRank b ∧ a.tod ≤ b.tod)) := by
  have ha1 := a.month_ge
  have ha2 := a.month_le
  have ha3 := a.day_ge
  have ha4 : a.day ≤ 31 := le_trans a.day_le (daysInMonth_le _ _)
  have hb1 := b.month_ge
  have hb2 := b.month_le
  have hb3 := b.day_ge
  have hb4 : b.day ≤ 31 := le_trans b.day_le (daysInMonth_le _ _)
  rw [pyLe_iff]
  unfold dayRank
  omega

theorem pyLe_nextDay_self (a : PyDateTime) : pyLe (nextDay a) a = false := by
  have h := dayRank_lt_nextDay a
  have ht := nextDay_tod a
  rw [← Bool.not_eq_true]
  intro hc
  rw [pyLe_iff_rank] at hc
  omega

theorem pyLe_prevDay_self (a : PyDateTime) : pyLe (prevDay a) a = true := by
  rw [pyLe_iff_rank]
  exact Or.inl (dayRank_prevDay_lt a)

theorem pyLe_subDays (k : Nat) (e : PyDateTime) : pyLe (subDays k e) e = true := by
  induction k with
  | zero => exact pyLe_refl e
  | succ k ih =>
    exact pyLe_trans _ _ _ (pyLe_prevDay_self (subDays k e)) ih

/-- The ascending list of the `k + 1` datetimes `e - k days, …, e - 1 day, e`. -/
def daysAsc (k : Nat) (e : PyDateTime) : List PyDateTime :=
  (List.range (k + 1)).map (fun j => subDays (k - j) e)

theorem daysAsc_zero (e : PyDateTime) : daysAsc 0 e = [e] := rfl

theorem daysAsc_succ (k : Nat) (e : PyDateTime) :
    daysAsc (k + 1) e = subDays (k + 1) e :: daysAsc k e := by
  unfold daysAsc
  rw [List.range_succ_eq_map]
  simp only [List.map_cons, Nat.sub_zero, List.map_map]
  congr 1
  apply List.map_congr_left
  intro j _
  simp only [Function.comp_apply, Nat.succ_sub_succ]

theorem collectDays_stop (gen : PyDateTime → List String) (x e : PyDateTime)
    (hx : pyLe x e = false) : collectDays gen x e = [] := by
  rw [collectDays]
  simp [hx]

theorem collectDays_step (gen : PyDateTime → List String) (x e : PyDateTime)
    (hx : pyLe x e = true) :
    collectDays gen x e = gen x ++ collectDays gen (nextDay x) e := by
  rw [collectDays]
  simp [hx]

/-- Unrolling of the inclusive day loop: starting `k` days before `e`, the
loop visits exactly the `k + 1` days `e - k, …, e` in ascending order. -/
theorem collectDays_subDays (gen : PyDateTime → List String) (k : Nat)
    (e : PyDateTime) :
    collectDays gen (subDays k e) e = (daysAsc k e).flatMap gen := by
  induction k with
  | zero =>
    rw [daysAsc_zero]
    show collectDays gen e e = _
    rw [collectDays_step gen e e (pyLe_refl e),
      collectDays_stop gen (nextDay e) e (pyLe_nextDay_self e)]
    simp
  | succ k ih =>
    rw [daysAsc_succ]
    rw [collectDays_step gen (subDays (k + 1) e) e (pyLe_subDays (k + 1) e)]
    have : nextDay (subDays (k + 1) e) = subDays k e := nextDay_prevDay (subDays k e)
    rw [this, ih]
    simp

theorem daysAsc_length (k : Nat) (e : PyDateTime) : (daysAsc k e).length = k + 1 := by
  unfold daysAsc
  rw [List.length_map, List.length_range]

/-! ## URLGenerator (`src/downloader/url_generator.py`)

String formatting: Python's `strftime` with `%Y`/`%m`/`%d` is modelled by
fixed-width zero-padded decimal rendering.  This is exact for the years
1000–9999 (Python's formatting of years below 1000 is platform-dependent,
and its calendar stops at year 9999; theorems that need 4-digit years state
the range as a hypothesis). -/

/-- Two-digit zero-padded decimal (strftime `%m`, `%d`, and the `{:02d}`
format used for hour/minute/second). -/
def pad2 (n : Nat) : String := ⟨[Nat.digitChar (n / 10 % 10), Nat.digitChar (n % 10)]⟩

/-- Four-digit zero-padded decimal (strftime `%Y` for in-range years). -/
def pad4 (n : Nat) : String :=
  ⟨[Nat.digitChar (n / 1000 % 10), Nat.digitChar (n / 100 % 10),
    Nat.digitChar (n / 10 % 10), Nat.digitChar (n % 10)]⟩

def BASE_URL : String := "https://sdo.gsfc.nasa.gov/assets/img/browse"

def RESOLUTION : String := "4096"

def INSTRUMENT_CODE : String := "0211"

/-- `URLGenerator.construct_url`: `BASE/{year}/{month}/{day}/{YYYYMMDD}_{HHMMSS}_{resolution}_{filter}.jpg`. -/
def construct_url (date : PyDateTime) (time_sequence : String) : String :=
  let date_str := pad4 date.year.toNat ++ pad2 date.month ++ pad2 date.day
  let filename := date_str ++ "_" ++ time_sequence ++ "_" ++ RESOLUTION ++ "_" ++
    INSTRUMENT_CODE ++ ".jpg"
  BASE_URL ++ "/" ++ pad4 date.year.toNat ++ "/" ++ pad2 date.month ++ "/" ++
    pad2 date.day ++ "/" ++ filename

/-- The fixed time discretization of `URLGenerator.generate_daily_urls`:
hour 0–23 × minute {0,12,24,36,48} × second {0,30,59}. -/
def dailyTimePatterns : List String :=
  (List.range 24).flatMap (fun hour =>
    ([0, 12, 24, 36, 48] : List Nat).flatMap (fun minute =>
      ([0, 30, 59] : List Nat).map (fun second =>
        pad2 hour ++ pad2 minute ++ pad2 second)))

/-- `URLGenerator.generate_daily_urls`. -/
def generate_daily_urls (date : PyDateTime) : List String :=
  dailyTimePatterns.map (fun time_sequence => construct_url date time_sequence)

/-- `URLGenerator.generate_date_range_urls` (for `days ≥ 1`, the only range
the callers and the spec use; Python would also accept non-positive `days`
and return an empty list). -/
def generate_date_range_urls (days : Nat) (end_date : PyDateTime) : List String :=
  let start_date := subDays (days - 1) end_date
  collectDays generate_daily_urls start_date end_date

/-! ### The URL regular expression

`URLGenerator.url_pattern` is the regular expression
`https://sdo\.gsfc\.nasa\.gov/assets/img/browse/(\d{4})/(\d{2})/(\d{2})/(\d{8})_(\d{6})_4096_0211\.jpg`
used with `re.match` (anchored at the start of the string, trailing
characters allowed).  Every token of the pattern is a literal or a
fixed-width digit class, so matching is deterministic and is modelled by a
sequential parser over the character list. -/

/-- Consume exactly the literal `lit` from the front of `cs`. -/
def expectLit (lit cs : List Char) : Option (List Char) :=
  match lit, cs with
  | [], rest => some rest
  | l :: ls, c :: rest => if c = l then expectLit ls rest else none
  | _ :: _, [] => none

/-- Consume exactly `n` decimal digits from the front of `cs` (the `\d{n}`
token of the pattern). -/
def takeDigits (n : Nat) (cs : List Char) : Option (List Char × List Char) :=
  match n, cs with
  | 0, rest => some ([], rest)
  | n + 1, c :: rest =>
    if c.isDigit then (takeDigits n rest).map (fun p => (c :: p.1, p.2)) else none
  | _ + 1, [] => none

/-- Python's `int()` on a string of decimal digits. -/
def digitsToNat (cs : List Char) : Nat :=
  cs.foldl (fun acc c => 10 * acc + (c.toNat - 48)) 0

/-- Match of `URLGenerator.url_pattern` against `url`, returning the five
captured groups `(year, month, day, date_part, time_part)` (the three date
components already converted by `int()` as the caller does). -/
def urlPatternMatch (url : String) : Option (Nat × Nat × Nat × String × String) := do
  let rest0 ← expectLit (BASE_URL ++ "/").data url.data
  let (y4, rest1) ← takeDigits 4 rest0
  let rest2 ← expectLit ['/'] rest1
  let (m2, rest3) ← takeDigits 2 rest2
  let rest4 ← expectLit ['/'] rest3
  let (d2, rest5) ← takeDigits 2 rest4
  let rest6 ← expectLit ['/'] rest5
  let (dp8, rest7) ← takeDigits 8 rest6
  let rest8 ← expectLit ['_'] rest7
  let (tp6, rest9) ← takeDigits 6 rest8
  let _ ← expectLit ("_" ++ RESOLUTION ++ "_" ++ INSTRUMENT_CODE ++ ".jpg").data rest9
  some (digitsToNat y4, digitsToNat m2, digitsToNat d2, ⟨dp8⟩, ⟨tp6⟩)

/-- `URLGenerator.extract_metadata_from_url`: parse the URL with the fixed
pattern and rebuild `datetime(int(year), int(month), int(day))`; any
pattern mismatch or invalid calendar date yields `none` (Python's
`(None, None)`). -/
def extract_metadata_from_url (url : String) : Option (PyDateTime × String) :=
  match urlPatternMatch url with
  | none => none
  | some (y, m, d, _, tp) =>
    if h : 1 ≤ y ∧ 1 ≤ m ∧ m ≤ 12 ∧ 1 ≤ d ∧ d ≤ daysInMonth (y : Int) m then
      some (⟨(y : Int), m, d, 0, h.2.1, h.2.2.1, h.2.2.2.1, h.2.2.2.2, (by omega)⟩, tp)
    else
      none

/-! ## MonitoringLoop (`src/scheduler/monitoring_loop.py`) -/

/-- The mutable counters and settings of a `MonitoringLoop` instance. -/
structure MonitoringLoopState where
  check_interval : Nat
  monitoring_range_days : Nat
  is_running : Bool
  total_checks : Nat
  new_images_found : Nat

/-- `MonitoringLoop.set_monitoring_range`: rejects `days < 1` with a
`ValueError`, otherwise stores the new range. -/
def set_monitoring_range (st : MonitoringLoopState) (days : Int) :
    Except String MonitoringLoopState :=
  if days < 1 then Except.error "Monitoring range must be at least 1 day"
  else Except.ok { st with monitoring_range_days := days.toNat }

/-- `MonitoringLoop.get_monitoring_range`. -/
def get_monitoring_range (st : MonitoringLoopState) : Nat :=
  st.monitoring_range_days

/-- The candidate-URL generation phase of
`MonitoringLoop._check_for_new_images`: `start_date = now -
timedelta(days=monitoring_range_days)`, then the inclusive
`while current_date <= end_date` loop collecting
`URLGenerator.generate_daily_urls(current_date)`. -/
def monitoringWindowUrls (monitoring_range_days : Nat) (now : PyDateTime) :
    List String :=
  collectDays generate_daily_urls (subDays monitoring_range_days now) now

/-- A sample in-range datetime, 2024-03-15 at midnight, used as the concrete
input of witnesses and counterexamples. -/
def sampleDate : PyDateTime :=
  mkDate 2024 3 15 (by constructor <;> decide) (by constructor <;> decide)

/-- The same calendar date at noon (time of day 43200 s). -/
def sampleNoon : PyDateTime :=
  ⟨2024, 3, 1, 43200, by decide, by decide, by decide, by decide, by decide⟩

/-! ### Decimal rendering and parsing lemmas -/

theorem digitChar_toNat (d : Nat) (h : d < 10) :
    (Nat.digitChar d).toNat = 48 + d := by
  interval_cases d <;> rfl

theorem digitChar_isDigit (d : Nat) (h : d < 10) :
    (Nat.digitChar d).isDigit = true := by
  interval_cases d <;> rfl

theorem pad4_data (n : Nat) : (pad4 n).data =
    [Nat.digitChar (n / 1000 % 10), Nat.digitChar (n / 100 % 10),
     Nat.digitChar (n / 10 % 10), Nat.digitChar (n % 10)] := rfl

theorem pad2_data (n : Nat) : (pad2 n).data =
    [Nat.digitChar (n / 10 % 10), Nat.digitChar (n % 10)] := rfl

theorem pad4_digits (n : Nat) : ∀ c ∈ (pad4 n).data, c.isDigit = true := by
  intro c hc
  have h10 : ∀ m : Nat, m % 10 < 10 := fun m => Nat.mod_lt _ (by omega)
  rw [pad4_data] at hc
  simp only [List.mem_cons, List.not_mem_nil, or_false] at hc
  rcases hc with h | h | h | h <;> (subst h; exact digitChar_isDigit _ (h10 _))

theorem pad2_digits (n : Nat) : ∀ c ∈ (pad2 n).data, c.isDigit = true := by
  intro c hc
  have h10 : ∀ m : Nat, m % 10 < 10 := fun m => Nat.mod_lt _ (by omega)
  rw [pad2_data] at hc
  simp only [List.mem_cons, List.not_mem_nil, or_false] at hc
  rcases hc with h | h <;> (subst h; exact digitChar_isDigit _ (h10 _))

theorem digitsToNat_pad4 (n : Nat) (h : n < 10000) : digitsToNat (pad4 n).data = n := by
  have h10 : ∀ m : Nat, m % 10 < 10 := fun m => Nat.mod_lt _ (by omega)
  show digitsToNat [Nat.digitChar (n / 1000 % 10), Nat.digitChar (n / 100 % 10),
    Nat.digitChar (n / 10 % 10), Nat.digitChar (n % 10)] = n
  unfold digitsToNat
  simp only [List.foldl_cons, List.foldl_nil,
    digitChar_toNat _ (h10 _)]
  omega

theorem digitsToNat_pad2 (n : Nat) (h : n < 100) : digitsToNat (pad2 n).data = n := by
  have h10 : ∀ m : Nat, m % 10 < 10 := fun m => Nat.mod_lt _ (by omega)
  show digitsToNat [Nat.digitChar (n / 10 % 10), Nat.digitChar (n % 10)] = n
  unfold digitsToNat
  simp only [List.foldl_cons, List.foldl_nil,
    digitChar_toNat _ (h10 _)]
  omega

theorem expectLit_self (l rest : List Char) : expectLit l (l ++ rest) = some rest := by
  induction l with
  | nil => rfl
  | cons c cs ih => simp [expectLit, ih]

theorem expectLit_self_nil (l : List Char) : expectLit l l = some [] := by
  have h := expectLit_self l []
  simpa using h

theorem expectLit_append_lit (l1 l2 cs : List Char) :
    expectLit (l1 ++ l2) cs = (expectLit l1 cs).bind (expectLit l2) := by
  induction l1 generalizing cs with
  | nil => simp [expectLit]
  | cons c cs1 ih =>
    cases cs with
    | nil => simp [expectLit]
    | cons d ds =>
      simp only [List.cons_append, expectLit]
      split
      · exact ih ds
      · simp

theorem takeDigits_exact (ds rest : List Char) (h : ∀ c ∈ ds, c.isDigit = true) :
    takeDigits ds.length (ds ++ rest) = some (ds, rest) := by
  induction ds with
  | nil => rfl
  | cons c cs ih =>
    simp only [List.length_cons, List.cons_append, takeDigits,
      h c (List.mem_cons_self c cs), if_true, List.append_eq]
    rw [ih (fun x hx => h x (List.mem_cons_of_mem c hx))]
    rfl

theorem takeDigits_pad4 (n : Nat) (rest : List Char) :
    takeDigits 4 ((pad4 n).data ++ rest) = some ((pad4 n).data, rest) :=
  takeDigits_exact (pad4 n).data rest (pad4_digits n)

theorem takeDigits_pad2 (n : Nat) (rest : List Char) :
    takeDigits 2 ((pad2 n).data ++ rest) = some ((pad2 n).data, rest) :=
  takeDigits_exact (pad2 n).data rest (pad2_digits n)

theorem takeDigits_dateStr (a b c : Nat) (rest : List Char) :
    takeDigits 8 ((pad4 a).data ++ ((pad2 b).data ++ ((pad2 c).data ++ rest))) =
      some ((pad4 a).data ++ ((pad2 b).data ++ (pad2 c).data), rest) := by
  have hd : ∀ x ∈ (pad4 a).data ++ ((pad2 b).data ++ (pad2 c).data),
      x.isDigit = true := by
    intro x hx
    rcases List.mem_append.mp hx with h | h
    · exact pad4_digits a x h
    rcases List.mem_append.mp h with h | h
    · exact pad2_digits b x h
    · exact pad2_digits c x h
  have h := takeDigits_exact ((pad4 a).data ++ ((pad2 b).data ++ (pad2 c).data)) rest hd
  simpa [List.append_assoc] using h

theorem string_mk_data (s : String) : String.mk s.data = s := rfl

set_option maxRecDepth 4000 in
/-- Matching the fixed URL pattern against a constructed URL recovers the
three date components and the time group. -/
theorem urlPatternMatch_construct (date : PyDateTime) (cs : List Char)
    (hy2 : date.year.toNat < 10000)
    (hlen : cs.length = 6) (hdig : ∀ c ∈ cs, c.isDigit = true) :
    urlPatternMatch (construct_url date ⟨cs⟩) =
      some (date.year.toNat, date.month, date.day,
        ⟨(pad4 date.year.toNat).data ++ ((pad2 date.month).data ++ (pad2 date.day).data)⟩,
        ⟨cs⟩) := by
  have hm100 : date.month < 100 := by have := date.month_le; omega
  have hd100 : date.day < 100 := by
    have := date.day_le
    have := daysInMonth_le date.year date.month
    omega
  have hts : ∀ rest : List Char, takeDigits 6 (cs ++ rest) = some (cs, rest) := by
    intro rest
    have h := takeDigits_exact cs rest hdig
    rwa [hlen] at h
  unfold construct_url urlPatternMatch
  simp only [String.data_append, List.append_assoc]
  simp only [Option.bind_eq_bind, expectLit_append_lit, expectLit_self,
    expectLit_self_nil, Option.some_bind, takeDigits_pad4, takeDigits_pad2,
    takeDigits_dateStr, hts]
  simp only [digitsToNat_pad4 _ hy2, digitsToNat_pad2 _ hm100,
    digitsToNat_pad2 _ hd100]

/-- Evaluation of `extract_metadata_from_url` after a successful pattern
match with a valid date. -/
theorem extract_of_match (url : String) (y m d : Nat) (dp tp : String)
    (hmatch : urlPatternMatch url = some (y, m, d, dp, tp))
    (h : 1 ≤ y ∧ 1 ≤ m ∧ m ≤ 12 ∧ 1 ≤ d ∧ d ≤ daysInMonth (y : Int) m) :
    extract_metadata_from_url url =
      some (⟨(y : Int), m, d, 0, h.2.1, h.2.2.1, h.2.2.2.1, h.2.2.2.2, (by omega)⟩, tp) := by
  unfold extract_metadata_from_url
  rw [hmatch]
  exact dif_pos h

/-- Round trip of `construct_url` and `extract_metadata_from_url` for dates
at midnight with a 4-digit year (1000-9999, where the `pad4` model of
`strftime('%Y')` is exact — below 1000 CPython's rendering is
platform-dependent and on glibc un-padded, so the real URL would not match
`url_pattern` at all) and 6-digit time sequences. -/
theorem extract_metadata_construct_url (date : PyDateTime) (ts : String)
    (hy1 : 1000 ≤ date.year) (hy2 : date.year ≤ 9999) (h0 : date.tod = 0)
    (hlen : ts.length = 6) (hdig : ∀ c ∈ ts.data, c.isDigit = true) :
    extract_metadata_from_url (construct_url date ts) = some (date, ts) := by
  have hcast : ((date.year.toNat : Nat) : Int) = date.year := Int.toNat_of_nonneg (by omega)
  have hy2' : date.year.toNat < 10000 := by omega
  have hmatch := urlPatternMatch_construct date ts.data hy2' hlen hdig
  rw [string_mk_data] at hmatch
  have hcond : 1 ≤ date.year.toNat ∧ 1 ≤ date.month ∧ date.month ≤ 12 ∧
      1 ≤ date.day ∧ date.day ≤ daysInMonth ((date.year.toNat : Nat) : Int) date.month := by
    refine ⟨by omega, date.month_ge, date.month_le, date.day_ge, ?_⟩
    rw [hcast]
    exact date.day_le
  rw [extract_of_match _ _ _ _ _ _ hmatch hcond]
  refine congrArg some (Prod.ext ?_ ?_)
  · exact PyDateTime.ext_fields _ _ hcast rfl rfl (by rw [h0])
  · exact string_mk_data ts

set_option maxRecDepth 8000 in
theorem dailyTimePatterns_length : dailyTimePatterns.length = 360 := by decide

theorem generate_daily_urls_length (d : PyDateTime) :
    (generate_daily_urls d).length = 360 := by
  unfold generate_daily_urls
  rw [List.length_map]
  exact dailyTimePatterns_length

/-! ## Claim theorems -/

/-- C5 (amended): for every datetime whose time of day is midnight and
whose year has four digits (1000-9999 — `strftime('%Y')` zero-pads only in
that range; for earlier years glibc renders the year un-padded and the URL
never matches `url_pattern`), and every 6-digit `time_sequence` string,
`extract_metadata_from_url` applied to `construct_url date time_sequence`
returns exactly `(date, time_sequence)`.  (For a datetime with a non-zero
time of day the original claim fails: the extracted datetime is truncated
to midnight, see the counterexample.) -/
theorem claim_url_roundtrip (date : PyDateTime) (ts : String)
    (hy1 : 1000 ≤ date.year) (hy2 : date.year ≤ 9999) (h0 : date.tod = 0)
    (hlen : ts.length = 6) (hdig : ∀ c ∈ ts.data, c.isDigit = true) :
    extract_metadata_from_url (construct_url date ts) = some (date, ts) :=
  extract_metadata_construct_url date ts hy1 hy2 h0 hlen hdig

/-- Witness for C5 at the concrete date 2024-03-15 and time group 001230. -/
theorem claim_url_roundtrip_witness :
    extract_metadata_from_url (construct_url sampleDate "001230") =
      some (sampleDate, "001230") :=
  claim_url_roundtrip sampleDate "001230" (by decide) (by decide) (by decide)
    (by decide) (by decide)

/-- Counterexample to C5 as stated: for the datetime 2024-03-01 12:00:00
(noon) the round trip does not return the datetime unchanged — the URL only
encodes the calendar date, so extraction yields midnight. -/
theorem claim_url_roundtrip_counterexample :
    extract_metadata_from_url (construct_url sampleNoon "001230") ≠
      some (sampleNoon, "001230") := by
  have hmatch := urlPatternMatch_construct sampleNoon ("001230".data)
    (by decide) (by decide) (by decide)
  rw [string_mk_data] at hmatch
  have hx := extract_of_match _ _ _ _ _ _ hmatch
    ⟨by decide, by decide, by decide, by decide, by decide⟩
  intro hc
  rw [hx] at hc
  injection hc with h1
  have h2 := congrArg (fun p : PyDateTime × String => p.1.tod) h1
  exact absurd h2 (by decide)

/-- C9: for every `days ≥ 1` and every `end_date`,
`generate_date_range_urls days end_date` is exactly the concatenation of the
daily URL sets of the `days` calendar dates `end_date - (days-1), …,
end_date`, in ascending date order, and `days = 1` yields exactly the URLs
of `end_date`. -/
theorem claim_date_range_inclusive (days : Nat) (end_date : PyDateTime)
    (h : 1 ≤ days) :
    generate_date_range_urls days end_date =
        (daysAsc (days - 1) end_date).flatMap generate_daily_urls ∧
      daysAsc (days - 1) end_date =
        (List.range days).map (fun j => subDays (days - 1 - j) end_date) ∧
      (daysAsc (days - 1) end_date).length = days ∧
      generate_date_range_urls 1 end_date = generate_daily_urls end_date := by
  refine ⟨collectDays_subDays _ _ _, ?_, ?_, ?_⟩
  · unfold daysAsc
    congr 2
    omega
  · rw [daysAsc_length]; omega
  · have h1 := collectDays_subDays generate_daily_urls 0 end_date
    show collectDays generate_daily_urls (subDays 0 end_date) end_date = _
    rw [h1, daysAsc_zero]
    simp

/-- Witness for C9 at `days = 3` and the concrete end date 2024-03-15:
the generated URLs cover exactly 2024-03-13, 2024-03-14, 2024-03-15. -/
theorem claim_date_range_inclusive_witness :
    generate_date_range_urls 3 sampleDate =
        (daysAsc 2 sampleDate).flatMap generate_daily_urls ∧
      daysAsc 2 sampleDate =
        (List.range 3).map (fun j => subDays (3 - 1 - j) sampleDate) ∧
      (daysAsc 2 sampleDate).length = 3 ∧
      generate_date_range_urls 1 sampleDate = generate_daily_urls sampleDate :=
  claim_date_range_inclusive 3 sampleDate (by decide)

/-- C2 (amended): after `set_monitoring_range(7)`, `get_monitoring_range()`
returns 7, and the next `_check_for_new_images` cycle computes the window
`[now - 7 days, now]` and generates candidate URLs for exactly 7 + 1 = 8
calendar days — the loop `while current_date <= end_date` includes both
endpoints, so a range of `N` days always spans `N + 1` calendar dates (the
original claim's count of exactly `N` days fails, see the
counterexample). -/
theorem claim_monitoring_window (st : MonitoringLoopState) (now : PyDateTime) :
    set_monitoring_range st 7 =
        Except.ok { st with monitoring_range_days := 7 } ∧
      get_monitoring_range { st with monitoring_range_days := 7 } = 7 ∧
      monitoringWindowUrls 7 now = (daysAsc 7 now).flatMap generate_daily_urls ∧
      (daysAsc 7 now).length = 7 + 1 := by
  refine ⟨?_, rfl, collectDays_subDays _ _ _, daysAsc_length _ _⟩
  unfold set_monitoring_range
  rw [if_neg (by omega)]
  rfl

/-- Counterexample to C2 as stated: with the default
`monitoring_range_days = 1`, the cycle's candidate URLs are those of two
calendar days (the previous day and today), not one. -/
theorem claim_monitoring_window_counterexample :
    monitoringWindowUrls 1 sampleDate =
        generate_daily_urls (prevDay sampleDate) ++ generate_daily_urls sampleDate ∧
      monitoringWindowUrls 1 sampleDate ≠ generate_daily_urls sampleDate := by
  have heq : monitoringWindowUrls 1 sampleDate =
      generate_daily_urls (prevDay sampleDate) ++ generate_daily_urls sampleDate := by
    have h := collectDays_subDays generate_daily_urls 1 sampleDate
    show collectDays generate_daily_urls (subDays 1 sampleDate) sampleDate = _
    rw [h, daysAsc_succ, daysAsc_zero]
    simp [subDays]
  refine ⟨heq, ?_⟩
  intro hc
  rw [heq] at hc
  have h3 := congrArg List.length hc
  rw [List.length_append, generate_daily_urls_length, generate_daily_urls_length] at h3
  omega

/-! ## ImageFetcher (`src/downloader/image_fetcher.py`)

The HTTP world is an oracle `net : Nat → HttpResponse` giving the outcome of
the request made on each attempt.  The observable effects the specification
talks about are returned as an explicit event trace: one `.enforce` per
`_enforce_rate_limit` call, one `.request` per HTTP request handed to the
session, one `.sleep d` per back-off `time.sleep(d)`. -/

/-- Outcome of one HTTP GET attempt: a response with status code and body
bytes, a `requests.exceptions.Timeout`, a
`requests.exceptions.ConnectionError`, or any other exception. -/
inductive HttpResponse where
  | status (code : Nat) (body : List Nat)
  | timeout
  | connError
  | exc (msg : String)
deriving DecidableEq

/-- Outcome of one HTTP HEAD request: status code and optional
`Content-Length` header, or an exception. -/
inductive HeadResponse where
  | status (code : Nat) (contentLength : Option Nat)
  | exc (msg : String)
deriving DecidableEq

/-- Observable effects of the fetcher. -/
inductive FetchEvent where
  | enforce
  | request
  | sleep (secs : Nat)
deriving DecidableEq

/-- `ImageFetcher._exponential_backoff`: `min(2 ** attempt, 60)`. -/
def exponential_backoff (attempt : Nat) : Nat :=
  min (2 ^ attempt) 60

/-- `ImageFetcher._enforce_rate_limit` over an idealised real-time clock
(rational seconds): given the configured delay, the current time and the
stored `last_request_time`, returns the sleep performed and the new
`last_request_time` (the code re-reads `time.time()` after sleeping, which
under an exact clock is `now + sleep`). -/
def enforce_rate_limit (rate_limit_delay now last_request_time : ℚ) : ℚ × ℚ :=
  let time_since_last := now - last_request_time
  if time_since_last < rate_limit_delay then
    (rate_limit_delay - time_since_last, now + (rate_limit_delay - time_since_last))
  else
    (0, now)

/-- The `for attempt in range(max_retries)` loop of
`ImageFetcher.download_image`, with `remaining = max_retries - attempt`
iterations left.  Returns Python's `(success, image_data, error_message)`
triple together with the event trace of this loop. -/
def dlLoop (net : Nat → HttpResponse) (url : String) (maxRetries : Nat) :
    Nat → Nat → (Bool × Option (List Nat) × Option String) × List FetchEvent
  | _, 0 => ((false, none, some ("Max retries exceeded for: " ++ url)), [])
  | attempt, remaining + 1 =>
    match net attempt with
    | .status code body =>
      if code = 200 then ((true, some body, none), [.request])
      else if code = 404 then
        ((false, none, some ("Image not found (404): " ++ url)), [.request])
      else
        if attempt < maxRetries - 1 then
          let d := exponential_backoff attempt
          let r := dlLoop net url maxRetries (attempt + 1) remaining
          (r.1, .request :: .sleep d :: r.2)
        else
          ((false, none, some ("HTTP " ++ toString code ++ ": " ++ url)), [.request])
    | .timeout =>
      if attempt < maxRetries - 1 then
        let d := exponential_backoff attempt
        let r := dlLoop net url maxRetries (attempt + 1) remaining
        (r.1, .request :: .sleep d :: r.2)
      else
        ((false, none, some ("Timeout downloading: " ++ url)), [.request])
    | .connError =>
      if attempt < maxRetries - 1 then
        let d := exponential_backoff attempt
        let r := dlLoop net url maxRetries (attempt + 1) remaining
        (r.1, .request :: .sleep d :: r.2)
      else
        ((false, none, some ("Connection error downloading: " ++ url)), [.request])
    | .exc m =>
      ((false, none, some ("Unexpected error downloading " ++ url ++ ": " ++ m)), [.request])

/-- `ImageFetcher.download_image`: one `_enforce_rate_limit` call, then the
retry loop. -/
def download_image (net : Nat → HttpResponse) (url : String) (maxRetries : Nat) :
    (Bool × Option (List Nat) × Option String) × List FetchEvent :=
  let r := dlLoop net url maxRetries 0 maxRetries
  (r.1, .enforce :: r.2)

/-- `ImageFetcher.check_image_exists`: rate limit, one HEAD request,
`status == 200`; every exception is swallowed into `false`. -/
def check_image_exists (resp : HeadResponse) : Bool × List FetchEvent :=
  match resp with
  | .status code _ => (code == 200, [.enforce, .request])
  | .exc _ => (false, [.enforce, .request])

/-- `ImageFetcher.get_image_size`: rate limit, one HEAD request, returns the
`Content-Length` if present on a 200 response, `none` otherwise. -/
def get_image_size (resp : HeadResponse) : Option Nat × List FetchEvent :=
  match resp with
  | .status code cl => (if code = 200 then cl else none, [.enforce, .request])
  | .exc _ => (none, [.enforce, .request])

/-- Number of HTTP requests in a trace. -/
def requestCount (evs : List FetchEvent) : Nat :=
  evs.count FetchEvent.request

/-- The back-off sleep durations of a trace, in order. -/
def backoffSleeps (evs : List FetchEvent) : List Nat :=
  evs.filterMap (fun e => match e with | .sleep d => some d | _ => none)

theorem dlLoop_no_enforce (net : Nat → HttpResponse) (url : String)
    (maxRetries : Nat) : ∀ remaining attempt,
    (dlLoop net url maxRetries attempt remaining).2.count FetchEvent.enforce = 0 := by
  intro remaining
  induction remaining with
  | zero => intro attempt; simp [dlLoop]
  | succ n ih =>
    intro attempt
    unfold dlLoop
    cases net attempt with
    | status code body =>
      by_cases h200 : code = 200
      · simp [h200, List.count_cons]
      · by_cases h404 : code = 404
        · simp [h200, h404, List.count_cons]
        · by_cases hlast : attempt < maxRetries - 1
          · simp [h200, h404, hlast, List.count_cons, ih (attempt + 1)]
          · simp [h200, h404, hlast, List.count_cons]
    | timeout =>
      by_cases hlast : attempt < maxRetries - 1
      · simp [hlast, List.count_cons, ih (attempt + 1)]
      · simp [hlast, List.count_cons]
    | connError =>
      by_cases hlast : attempt < maxRetries - 1
      · simp [hlast, List.count_cons, ih (attempt + 1)]
      · simp [hlast, List.count_cons]
    | exc m => simp [List.count_cons]

/-- C3: a URL whose server answers HTTP 404 on every attempt gets exactly one
HTTP request, no back-off sleeps, and `(False, None, message)` with a message
containing "404". -/
theorem claim_404_terminal (net : Nat → HttpResponse) (body : Nat → List Nat)
    (url : String) (maxRetries : Nat)
    (hmr : 1 ≤ maxRetries) (h404 : ∀ a, net a = HttpResponse.status 404 (body a)) :
    download_image net url maxRetries =
        ((false, none, some ("Image not found (404): " ++ url)),
          [FetchEvent.enforce, FetchEvent.request]) ∧
      requestCount (download_image net url maxRetries).2 = 1 ∧
      backoffSleeps (download_image net url maxRetries).2 = [] ∧
      List.IsInfix "404".data ("Image not found (404): " ++ url).data := by
  obtain ⟨k, rfl⟩ : ∃ k, maxRetries = k + 1 := ⟨maxRetries - 1, by omega⟩
  have hrun : download_image net url (k + 1) =
      ((false, none, some ("Image not found (404): " ++ url)),
        [FetchEvent.enforce, FetchEvent.request]) := by
    unfold download_image dlLoop
    rw [h404 0]
    norm_num
  refine ⟨hrun, by rw [hrun]; rfl, by rw [hrun]; rfl, ?_⟩
  have hpre : List.IsInfix "404".data ("Image not found (404): ").data := by decide
  have happ : List.IsPrefix ("Image not found (404): ").data
      (("Image not found (404): ").data ++ url.data) := List.prefix_append _ _
  rw [String.data_append]
  exact hpre.trans happ.isInfix

/-- Witness for C3: a concrete always-404 server, `max_retries = 5`. -/
theorem claim_404_terminal_witness :
    download_image (fun _ => HttpResponse.status 404 []) "http://example/a.jpg" 5 =
        ((false, none, some ("Image not found (404): " ++ "http://example/a.jpg")),
          [FetchEvent.enforce, FetchEvent.request]) ∧
      requestCount (download_image (fun _ => HttpResponse.status 404 [])
        "http://example/a.jpg" 5).2 = 1 ∧
      backoffSleeps (download_image (fun _ => HttpResponse.status 404 [])
        "http://example/a.jpg" 5).2 = [] ∧
      List.IsInfix "404".data
        ("Image not found (404): " ++ "http://example/a.jpg").data :=
  claim_404_terminal (fun _ => HttpResponse.status 404 []) (fun _ => [])
    "http://example/a.jpg" 5 (by omega) (fun _ => rfl)

/-- C6: the per-attempt back-off delay is `min(2 ** attempt, 60)` seconds,
and a URL that times out on every attempt with `max_retries = 5` gets 5
requests separated by back-off sleeps of 1, 2, 4 and 8 seconds (15 seconds
cumulatively) before the failure is returned. -/
theorem claim_backoff_schedule (net : Nat → HttpResponse) (url : String)
    (h : ∀ a, net a = HttpResponse.timeout) :
    (∀ attempt, exponential_backoff attempt = min (2 ^ attempt) 60) ∧
      download_image net url 5 =
        ((false, none, some ("Timeout downloading: " ++ url)),
          [FetchEvent.enforce, FetchEvent.request, FetchEvent.sleep 1,
           FetchEvent.request, FetchEvent.sleep 2, FetchEvent.request,
           FetchEvent.sleep 4, FetchEvent.request, FetchEvent.sleep 8,
           FetchEvent.request]) ∧
      requestCount (download_image net url 5).2 = 5 ∧
      backoffSleeps (download_image net url 5).2 = [1, 2, 4, 8] ∧
      (backoffSleeps (download_image net url 5).2).sum = 15 := by
  have hrun : download_image net url 5 =
      ((false, none, some ("Timeout downloading: " ++ url)),
        [FetchEvent.enforce, FetchEvent.request, FetchEvent.sleep 1,
         FetchEvent.request, FetchEvent.sleep 2, FetchEvent.request,
         FetchEvent.sleep 4, FetchEvent.request, FetchEvent.sleep 8,
         FetchEvent.request]) := by
    simp [download_image, dlLoop, h, exponential_backoff]
  exact ⟨fun _ => rfl, hrun, by rw [hrun]; rfl, by rw [hrun]; rfl, by rw [hrun]; rfl⟩

/-- Witness for C6: the concrete always-timeout server. -/
theorem claim_backoff_schedule_witness :
    (∀ attempt, exponential_backoff attempt = min (2 ^ attempt) 60) ∧
      download_image (fun _ => HttpResponse.timeout) "http://example/a.jpg" 5 =
        ((false, none, some ("Timeout downloading: " ++ "http://example/a.jpg")),
          [FetchEvent.enforce, FetchEvent.request, FetchEvent.sleep 1,
           FetchEvent.request, FetchEvent.sleep 2, FetchEvent.request,
           FetchEvent.sleep 4, FetchEvent.request, FetchEvent.sleep 8,
           FetchEvent.request]) ∧
      requestCount (download_image (fun _ => HttpResponse.timeout)
        "http://example/a.jpg" 5).2 = 5 ∧
      backoffSleeps (download_image (fun _ => HttpResponse.timeout)
        "http://example/a.jpg" 5).2 = [1, 2, 4, 8] ∧
      (backoffSleeps (download_image (fun _ => HttpResponse.timeout)
        "http://example/a.jpg" 5).2).sum = 15 :=
  claim_backoff_schedule (fun _ => HttpResponse.timeout) "http://example/a.jpg"
    (fun _ => rfl)

/-- C7 (amended): `_enforce_rate_limit` guarantees that the new
`last_request_time` is at least `rate_limit_delay` after the previous one,
and it is called exactly once per public fetcher call — before the first
request of `download_image` and before the single HEAD request of
`check_image_exists` / `get_image_size`.  Retry attempts inside
`download_image` are *not* individually rate-limited (the original claim
fails there, see the counterexample): they are spaced by the back-off
sleeps alone. -/
theorem claim_rate_limit_per_call (delay now last : ℚ)
    (net : Nat → HttpResponse) (url : String) (maxRetries : Nat)
    (resp : HeadResponse) :
    delay ≤ (enforce_rate_limit delay now last).2 - last ∧
      (download_image net url maxRetries).2.head? = some FetchEvent.enforce ∧
      (download_image net url maxRetries).2.count FetchEvent.enforce = 1 ∧
      (check_image_exists resp).2 = [FetchEvent.enforce, FetchEvent.request] ∧
      (get_image_size resp).2 = [FetchEvent.enforce, FetchEvent.request] := by
  refine ⟨?_, rfl, ?_, ?_, ?_⟩
  · simp only [enforce_rate_limit]
    split
    · simp only
      linarith
    · simp only
      linarith [le_of_not_lt (by assumption : ¬(now - last < delay))]
  · show (FetchEvent.enforce :: (dlLoop net url maxRetries 0 maxRetries).2).count
      FetchEvent.enforce = 1
    rw [List.count_cons_self, dlLoop_no_enforce]
  · cases resp <;> rfl
  · cases resp <;> rfl

/-- Witness for C7 at concrete times, a concrete server and a concrete HEAD
response. -/
theorem claim_rate_limit_per_call_witness :
    (1 : ℚ) ≤ (enforce_rate_limit 1 10 10).2 - 10 ∧
      (download_image (fun _ => HttpResponse.timeout) "http://example/a.jpg" 5).2.head? =
        some FetchEvent.enforce ∧
      (download_image (fun _ => HttpResponse.timeout) "http://example/a.jpg" 5).2.count
        FetchEvent.enforce = 1 ∧
      (check_image_exists (HeadResponse.status 200 (some 7))).2 =
        [FetchEvent.enforce, FetchEvent.request] ∧
      (get_image_size (HeadResponse.status 200 (some 7))).2 =
        [FetchEvent.enforce, FetchEvent.request] :=
  claim_rate_limit_per_call 1 10 10 (fun _ => HttpResponse.timeout)
    "http://example/a.jpg" 5 (HeadResponse.status 200 (some 7))

/-- Counterexample to C7 as stated: in a single `download_image` call with an
always-timing-out server and `max_retries = 5`, five HTTP requests are
issued but the rate limit is enforced only once — the four retry requests
are preceded by back-off sleeps, not by `_enforce_rate_limit`. -/
theorem claim_rate_limit_per_call_counterexample :
    (download_image (fun _ => HttpResponse.timeout) "u" 5).2 =
        [FetchEvent.enforce, FetchEvent.request, FetchEvent.sleep 1,
         FetchEvent.request, FetchEvent.sleep 2, FetchEvent.request,
         FetchEvent.sleep 4, FetchEvent.request, FetchEvent.sleep 8,
         FetchEvent.request] ∧
      (download_image (fun _ => HttpResponse.timeout) "u" 5).2.count
        FetchEvent.enforce = 1 ∧
      requestCount (download_image (fun _ => HttpResponse.timeout) "u" 5).2 = 5 ∧
      ¬ (download_image (fun _ => HttpResponse.timeout) "u" 5).2.count
          FetchEvent.enforce =
        requestCount (download_image (fun _ => HttpResponse.timeout) "u" 5).2 := by
  refine ⟨?_, ?_, ?_, ?_⟩ <;> decide

/-! ## StorageOrganizer (`src/storage/storage_organizer.py`)

The filesystem is an association list from paths (segment lists) to file
contents (byte lists).  The physical write channel is an explicit
`write_effect` oracle: the bytes that actually end up on disk after
`save_image` writes.  The ideal disk is `fun _ bytes => bytes`; the oracle
models the partial/failed writes that `validate_file_integrity` exists to
detect. -/

/-- A path, as its list of segments. -/
abbrev FsPath := List String

/-- The filesystem: an association list from paths to file bytes. -/
abbrev FileSystem := List (FsPath × List Nat)

def fsLookup (fs : FileSystem) (p : FsPath) : Option (List Nat) :=
  match fs with
  | [] => none
  | (q, bs) :: rest => if q = p then some bs else fsLookup rest p

def fsWrite (fs : FileSystem) (p : FsPath) (bs : List Nat) : FileSystem :=
  match fs with
  | [] => [(p, bs)]
  | (q, cs) :: rest => if q = p then (q, bs) :: rest else (q, cs) :: fsWrite rest p bs

theorem fsLookup_fsWrite_self (fs : FileSystem) (p : FsPath) (bs : List Nat) :
    fsLookup (fsWrite fs p bs) p = some bs := by
  induction fs with
  | nil => simp [fsWrite, fsLookup]
  | cons entry rest ih =>
    obtain ⟨q, cs⟩ := entry
    by_cases h : q = p
    · simp [fsWrite, fsLookup, h]
    · simp [fsWrite, fsLookup, h, ih]

/-- The configuration fields of a `StorageOrganizer` instance. -/
structure StorageOrganizer where
  base_data_dir : String
  resolution : String
  solar_filter : String
deriving DecidableEq

/-- `StorageOrganizer.get_date_path`: `base_dir/YYYY/MM/DD`. -/
def get_date_path (st : StorageOrganizer) (date : PyDateTime) : FsPath :=
  [st.base_data_dir, pad4 date.year.toNat, pad2 date.month, pad2 date.day]

/-- `StorageOrganizer.get_local_path`: `get_date_path(date)/filename`. -/
def get_local_path (st : StorageOrganizer) (filename : String) (date : PyDateTime) :
    FsPath :=
  get_date_path st date ++ [filename]

/-- `StorageOrganizer.file_exists`: a direct filesystem stat. -/
def file_exists (st : StorageOrganizer) (fs : FileSystem) (filename : String)
    (date : PyDateTime) : Bool :=
  (fsLookup fs (get_local_path st filename date)).isSome

/-- `StorageOrganizer.get_file_size`. -/
def get_file_size (st : StorageOrganizer) (fs : FileSystem) (filename : String)
    (date : PyDateTime) : Option Nat :=
  (fsLookup fs (get_local_path st filename date)).map List.length

/-- `StorageOrganizer.save_image`: create the date directories (implicit in
the path model) and write the bytes; `write_effect` is what the disk
actually retains. -/
def save_image (st : StorageOrganizer) (write_effect : FsPath → List Nat → List Nat)
    (fs : FileSystem) (image_data : List Nat) (filename : String)
    (date : PyDateTime) : FileSystem :=
  let local_path := get_local_path st filename date
  fsWrite fs local_path (write_effect local_path image_data)

/-- `StorageOrganizer.validate_file_integrity`: re-stat the file and compare
its size with the expected byte count. -/
def validate_file_integrity (st : StorageOrganizer) (fs : FileSystem)
    (filename : String) (date : PyDateTime) (expected_size : Nat) : Bool :=
  match get_file_size st fs filename date with
  | none => false
  | some actual => actual == expected_size

/-! ## DownloadManager (`src/downloader/image_fetcher.py`, second class) -/

/-- `TaskStatus` of `src/models.py`. -/
inductive TaskStatus where
  | pending
  | downloading
  | completed
  | failed
deriving DecidableEq

/-- `DownloadTask` of `src/models.py` (the `target_path` is a path; its last
segment is the filename). -/
structure DownloadTask where
  url : String
  target_path : FsPath
  retry_count : Nat
  status : TaskStatus
  error_message : Option String
deriving DecidableEq

/-- Python `datetime.strptime(s, "%Y%m%d")`: exactly eight digits forming a
valid calendar date (at midnight); anything else raises `ValueError`,
modelled as `none`. -/
def strptime_Ymd (s : List Char) : Option PyDateTime :=
  match takeDigits 4 s with
  | none => none
  | some (y4, r1) =>
    match takeDigits 2 r1 with
    | none => none
    | some (m2, r2) =>
      match takeDigits 2 r2 with
      | none => none
      | some (d2, r3) =>
        if r3 = [] then
          let y := digitsToNat y4
          let m := digitsToNat m2
          let d := digitsToNat d2
          if h : 1 ≤ y ∧ 1 ≤ m ∧ m ≤ 12 ∧ 1 ≤ d ∧ d ≤ daysInMonth (y : Int) m then
            some ⟨(y : Int), m, d, 0, h.2.1, h.2.2.1, h.2.2.2.1, h.2.2.2.2, (by omega)⟩
          else none
        else none

/-- The date-parsing step of `DownloadManager.download_and_save`:
`filename.split('_')[0]` then `strptime('%Y%m%d')`. -/
def parse_date_from_filename (filename : String) : Option PyDateTime :=
  strptime_Ymd (filename.data.takeWhile (fun c => c ≠ '_'))

/-- The filename of a task: `task.target_path.name`. -/
def taskFilename (task : DownloadTask) : String :=
  task.target_path.getLast?.getD ""

/-- The mutable counters of a `DownloadManager` instance together with the
filesystem it writes to. -/
structure DMState where
  fs : FileSystem
  download_count : Nat
  failed_tasks : List DownloadTask
deriving DecidableEq

/-- Result of one `download_and_save` call: the returned boolean, the task
as mutated, the resulting manager/filesystem state, and the fetcher's event
trace (empty when no fetch happened). -/
structure DownloadResult where
  ok : Bool
  task : DownloadTask
  state : DMState
  events : List FetchEvent
deriving DecidableEq

/-- `DownloadManager.download_and_save`.  `net` is the HTTP oracle for
`ImageFetcher.download_image`, `write_effect` the physical write channel of
`StorageOrganizer.save_image`, `maxRetries` the fetcher's `max_retries`.
Note Python's `if success and image_data:` — a successful fetch whose body
is empty (`b""` is falsy) takes the failure branch. -/
def download_and_save (net : Nat → HttpResponse)
    (write_effect : FsPath → List Nat → List Nat) (storage : StorageOrganizer)
    (maxRetries : Nat) (task : DownloadTask) (st : DMState) : DownloadResult :=
  let task1 := { task with status := TaskStatus.downloading }
  let filename := taskFilename task
  match parse_date_from_filename filename with
  | none =>
    ⟨false,
     { task1 with
       status := TaskStatus.failed
       error_message := some ("Could not parse date from filename: " ++ filename) },
     st, []⟩
  | some date =>
    if file_exists storage st.fs filename date then
      ⟨true, { task1 with status := TaskStatus.completed }, st, []⟩
    else
      let r := download_image net task.url maxRetries
      let success := r.1.1
      let image_data := r.1.2.1
      let error_msg := r.1.2.2
      let failTask :=
        { task1 with
          status := TaskStatus.failed
          error_message := some (error_msg.getD "Download failed") }
      let failRes : DownloadResult :=
        ⟨false, failTask, { st with failed_tasks := st.failed_tasks ++ [failTask] }, r.2⟩
      match image_data, success with
      | some bs, true =>
        if bs.isEmpty then failRes
        else
          let fs2 := save_image storage write_effect st.fs bs filename date
          let expected_size := bs.length
          if validate_file_integrity storage fs2 filename date expected_size then
            ⟨true, { task1 with status := TaskStatus.completed },
             { st with fs := fs2, download_count := st.download_count + 1 }, r.2⟩
          else
            ⟨false,
             { task1 with
               status := TaskStatus.failed
               error_message := some "File integrity check failed" },
             { st with fs := fs2 }, r.2⟩
      | _, _ => failRes

/-- `DownloadManager.get_download_count`. -/
def get_download_count (st : DMState) : Nat :=
  st.download_count

/-- `DownloadManager.get_failed_tasks` (returns a copy of the list). -/
def get_failed_tasks (st : DMState) : List DownloadTask :=
  st.failed_tasks

/-- `DownloadManager.reset_counters`. -/
def reset_counters (st : DMState) : DMState :=
  { st with download_count := 0, failed_tasks := [] }

/-- The status mapping returned by `MonitoringLoop.get_status`. -/
structure StatusReport where
  is_running : Bool
  check_interval_minutes : Nat
  monitoring_range_days : Nat
  total_checks : Nat
  new_images_found : Nat
  total_downloads : Nat
  failed_downloads : Nat
deriving DecidableEq

/-- `MonitoringLoop.get_status`. -/
def get_status (ml : MonitoringLoopState) (dm : DMState) : StatusReport :=
  { is_running := ml.is_running
    check_interval_minutes := ml.check_interval
    monitoring_range_days := ml.monitoring_range_days
    total_checks := ml.total_checks
    new_images_found := ml.new_images_found
    total_downloads := get_download_count dm
    failed_downloads := (get_failed_tasks dm).length }

theorem download_and_save_when_exists (net : Nat → HttpResponse)
    (we : FsPath → List Nat → List Nat) (storage : StorageOrganizer)
    (mr : Nat) (task : DownloadTask) (st : DMState) (date : PyDateTime)
    (hparse : parse_date_from_filename (taskFilename task) = some date)
    (hex : file_exists storage st.fs (taskFilename task) date = true) :
    download_and_save net we storage mr task st =
      ⟨true, { task with status := TaskStatus.completed }, st, []⟩ := by
  simp only [download_and_save]
  rw [hparse]
  simp only [hex, if_true]

theorem download_and_save_ok_exists (net : Nat → HttpResponse)
    (we : FsPath → List Nat → List Nat) (storage : StorageOrganizer)
    (mr : Nat) (task : DownloadTask) (st : DMState)
    (h : (download_and_save net we storage mr task st).ok = true) :
    ∃ date, parse_date_from_filename (taskFilename task) = some date ∧
      file_exists storage (download_and_save net we storage mr task st).state.fs
        (taskFilename task) date = true := by
  simp only [download_and_save] at h ⊢
  cases hp : parse_date_from_filename (taskFilename task) with
  | none =>
    rw [hp] at h
    simp at h
  | some date =>
    rw [hp] at h
    refine ⟨date, rfl, ?_⟩
    by_cases hex : file_exists storage st.fs (taskFilename task) date
    · simp only [hex, if_true]
    · simp only [hex, if_false] at h ⊢
      cases hdata : (download_image net task.url mr).1.2.1 with
      | none => rw [hdata] at h; simp at h
      | some bs =>
        rw [hdata] at h
        cases hsucc : (download_image net task.url mr).1.1 with
        | false => rw [hsucc] at h; simp at h
        | true =>
          rw [hsucc] at h
          by_cases hemp : bs.isEmpty
          · simp [hemp] at h
          · by_cases hval : validate_file_integrity storage
                (fsWrite st.fs (get_local_path storage (taskFilename task) date)
                  (we (get_local_path storage (taskFilename task) date) bs))
                (taskFilename task) date bs.length
            · simp [hemp, hval, file_exists, save_image, fsLookup_fsWrite_self]
            · simp [hemp, hval, save_image] at h

/-- C1: if `download_and_save` has completed successfully for a task (so
the file for its (filename, date) exists on disk), calling it again with a
task for the same filename performs no network fetch (empty event trace),
leaves the whole manager state — in particular the stored file — unchanged,
and returns success with the task marked COMPLETED, by short-circuiting on
`storage.file_exists`. -/
theorem claim_download_idempotent (net net2 : Nat → HttpResponse)
    (we we2 : FsPath → List Nat → List Nat) (storage : StorageOrganizer)
    (mr mr2 : Nat) (task task2 : DownloadTask) (st : DMState)
    (hsame : taskFilename task2 = taskFilename task)
    (h : (download_and_save net we storage mr task st).ok = true) :
    download_and_save net2 we2 storage mr2 task2
        ((download_and_save net we storage mr task st).state) =
      ⟨true, { task2 with status := TaskStatus.completed },
       (download_and_save net we storage mr task st).state, []⟩ := by
  obtain ⟨date, hparse, hex⟩ := download_and_save_ok_exists net we storage mr task st h
  exact download_and_save_when_exists net2 we2 storage mr2 task2 _ date
    (by rw [hsame]; exact hparse) (by rw [hsame]; exact hex)

/-- Concrete storage configuration for witnesses. -/
def storageW : StorageOrganizer := ⟨"data", "1024", "0211"⟩

/-- A concrete task whose filename parses to 2024-03-15. -/
def taskW : DownloadTask :=
  ⟨"http://example/20240315_001230_1024_0211.jpg",
   ["data", "2024", "03", "15", "20240315_001230_1024_0211.jpg"], 0,
   TaskStatus.pending, none⟩

/-- A manager state whose filesystem already holds the task's file. -/
def stW : DMState :=
  ⟨[(["data", "2024", "03", "15", "20240315_001230_1024_0211.jpg"], [1, 2, 3])], 0, []⟩

/-- Witness for C1: the first call short-circuits (file already on disk),
the second call returns success with no fetch and unchanged state. -/
theorem claim_download_idempotent_witness :
    download_and_save (fun _ => HttpResponse.timeout) (fun _ b => b) storageW 3 taskW
        ((download_and_save (fun _ => HttpResponse.timeout) (fun _ b => b)
          storageW 5 taskW stW).state) =
      ⟨true, { taskW with status := TaskStatus.completed },
       (download_and_save (fun _ => HttpResponse.timeout) (fun _ b => b)
         storageW 5 taskW stW).state, []⟩ :=
  claim_download_idempotent (fun _ => HttpResponse.timeout)
    (fun _ => HttpResponse.timeout) (fun _ b => b) (fun _ b => b) storageW 5 3
    taskW taskW stW rfl (by decide)

/-- C10: `download_and_save` appends to `failed_tasks` exactly when the
network fetch itself fails (including a fetch that returns an empty body,
which Python's `if success and image_data:` treats as a failure); a task
that fails date parsing or the post-save integrity check is marked FAILED
with an error message but never appended, so `get_failed_tasks()` and the
`failed_downloads` count of `get_status()` count only fetch-level
failures. -/
theorem claim_failed_tasks_fetch_only (net : Nat → HttpResponse)
    (we : FsPath → List Nat → List Nat) (storage : StorageOrganizer)
    (mr : Nat) (ml : MonitoringLoopState) (task : DownloadTask) (st : DMState) :
    ((download_and_save net we storage mr task st).state.failed_tasks =
        st.failed_tasks ++
          (match parse_date_from_filename (taskFilename task) with
           | none => []
           | some date =>
             if file_exists storage st.fs (taskFilename task) date then []
             else
               if (download_image net task.url mr).1.1 &&
                   !((download_image net task.url mr).1.2.1.getD []).isEmpty then []
               else
                 [{ task with
                    status := TaskStatus.failed
                    error_message :=
                      some ((download_image net task.url mr).1.2.2.getD
                        "Download failed") }])) ∧
      get_failed_tasks (download_and_save net we storage mr task st).state =
        (download_and_save net we storage mr task st).state.failed_tasks ∧
      (get_status ml (download_and_save net we storage mr task st).state).failed_downloads =
        (get_failed_tasks (download_and_save net we storage mr task st).state).length ∧
      (∀ date bs,
        parse_date_from_filename (taskFilename task) = some date →
        file_exists storage st.fs (taskFilename task) date = false →
        (download_image net task.url mr).1 = (true, some bs, none) →
        bs.isEmpty = false →
        validate_file_integrity storage
            (fsWrite st.fs (get_local_path storage (taskFilename task) date)
              (we (get_local_path storage (taskFilename task) date) bs))
            (taskFilename task) date bs.length = false →
        ((download_and_save net we storage mr task st).ok = false ∧
         (download_and_save net we storage mr task st).task.status = TaskStatus.failed ∧
         (download_and_save net we storage mr task st).task.error_message =
           some "File integrity check failed" ∧
         (download_and_save net we storage mr task st).state.failed_tasks =
           st.failed_tasks)) := by
  refine ⟨?_, rfl, rfl, ?_⟩
  · simp only [download_and_save]
    cases hp : parse_date_from_filename (taskFilename task) with
    | none => simp
    | some date =>
      by_cases hex : file_exists storage st.fs (taskFilename task) date
      · simp [hex]
      · simp only [hex, if_false]
        cases hdata : (download_image net task.url mr).1.2.1 with
        | none =>
          cases hsucc : (download_image net task.url mr).1.1 with
          | false => simp [hdata, hsucc]
          | true => simp [hdata, hsucc]
        | some bs =>
          cases hsucc : (download_image net task.url mr).1.1 with
          | false => simp [hdata, hsucc]
          | true =>
            by_cases hemp : bs.isEmpty
            · simp [hdata, hsucc, hemp]
            · by_cases hval : validate_file_integrity storage
                  (fsWrite st.fs (get_local_path storage (taskFilename task) date)
                    (we (get_local_path storage (taskFilename task) date) bs))
                  (taskFilename task) date bs.length
              · simp [hdata, hsucc, hemp, hval, save_image]
              · simp [hdata, hsucc, hemp, hval, save_image]
  · intro date bs hp hex hfetch hemp hval
    have hdata : (download_image net task.url mr).1.2.1 = some bs := by rw [hfetch]
    have hsucc : (download_image net task.url mr).1.1 = true := by rw [hfetch]
    simp only [download_and_save]
    rw [hp]
    simp [hex, hdata, hsucc, hemp, hval, save_image]

/-- Concrete monitoring state for witnesses. -/
def mlW : MonitoringLoopState := ⟨5, 1, false, 0, 0⟩

/-- The empty manager state. -/
def stEmptyW : DMState := ⟨[], 0, []⟩

/-- Witness for C10: a fetch that succeeds with body `[1]` whose write is
lost on disk fails the integrity check — the task is FAILED with the
integrity message and `failed_tasks` stays empty. -/
theorem claim_failed_tasks_fetch_only_witness :
    (download_and_save (fun _ => HttpResponse.status 200 [1]) (fun _ _ => [])
        storageW 5 taskW stEmptyW).ok = false ∧
      (download_and_save (fun _ => HttpResponse.status 200 [1]) (fun _ _ => [])
        storageW 5 taskW stEmptyW).task.status = TaskStatus.failed ∧
      (download_and_save (fun _ => HttpResponse.status 200 [1]) (fun _ _ => [])
        storageW 5 taskW stEmptyW).task.error_message =
        some "File integrity check failed" ∧
      (download_and_save (fun _ => HttpResponse.status 200 [1]) (fun _ _ => [])
        storageW 5 taskW stEmptyW).state.failed_tasks = stEmptyW.failed_tasks :=
  (claim_failed_tasks_fetch_only (fun _ => HttpResponse.status 200 [1])
    (fun _ _ => []) storageW 5 mlW taskW stEmptyW).2.2.2 sampleDate [1]
    (by decide) (by decide) (by decide) (by decide) (by decide)

/-! ## DirectoryScraper (`src/downloader/directory_scraper.py`)

The compiled file pattern `(\d{8}_\d{6}_{resolution}_{filter}\.jpg)` is a
fixed-width pattern once the resolution/filter strings are fixed, so
`re.search` is a left-to-right scan trying the pattern at each position and
`re.findall` the non-overlapping repetition of that scan.  A fetched
directory page is abstracted as the `href` values of its anchors plus the
raw page text. -/

/-- Python's `<=` on strings: lexicographic comparison of the code points. -/
def lexLe : List Char → List Char → Bool
  | [], _ => true
  | _ :: _, [] => false
  | a :: as, b :: bs =>
    if a.toNat < b.toNat then true
    else if b.toNat < a.toNat then false
    else lexLe as bs

/-- String comparison as Python orders filenames. -/
def strLe (a b : String) : Bool :=
  lexLe a.data b.data

/-- One insertion step of the stable ascending sort. -/
def orderedInsertStr (x : String) : List String → List String
  | [] => [x]
  | y :: ys => if strLe x y then x :: y :: ys else y :: orderedInsertStr x ys

/-- Python's `sorted` on a list of strings: the stable ascending sort, which
for the total lexicographic order is extensionally insertion sort. -/
def sortedStrings : List String → List String
  | [] => []
  | x :: xs => orderedInsertStr x (sortedStrings xs)

/-- Sortedness with respect to Python's string order. -/
def StrSorted (l : List String) : Prop :=
  List.Pairwise (fun a b => strLe a b = true) l

/-- Configuration fields of a `DirectoryScraper` instance. -/
structure DirectoryScraper where
  rate_limit_delay : ℚ
  resolution : String
  solar_filter : String

/-- An HTML directory page: the anchors' `href` attributes (as BeautifulSoup
would enumerate them) and the raw response text. -/
structure DirectoryPage where
  anchors : List String
  text : String

/-- Outcome of the directory GET. -/
inductive ScrapeResponse where
  | status (code : Nat) (page : DirectoryPage)
  | exc (msg : String)

/-- Try the file pattern at the head of `cs`: 8 digits, an underscore, 6
digits, then the literal `_{resolution}_{filter}.jpg`; returns the matched
text (the pattern's single capture group spans the whole match). -/
def matchFilePatternAt (res filt : String) (cs : List Char) : Option (List Char) :=
  match takeDigits 8 cs with
  | none => none
  | some (d8, r1) =>
    match expectLit ['_'] r1 with
    | none => none
    | some r2 =>
      match takeDigits 6 r2 with
      | none => none
      | some (d6, r3) =>
        match expectLit (('_' :: res.data) ++ ('_' :: filt.data) ++ ".jpg".data) r3 with
        | none => none
        | some _ =>
          some (d8 ++ '_' :: d6 ++ '_' :: res.data ++ '_' :: filt.data ++ ".jpg".data)

/-- `file_pattern.search`: the leftmost match, scanning position by
position. -/
def searchFilePattern (res filt : String) : List Char → Option String
  | [] => none
  | c :: rest =>
    match matchFilePatternAt res filt (c :: rest) with
    | some m => some (String.mk m)
    | none => searchFilePattern res filt rest

/-- `file_pattern.findall`, fuelled by the scan position count: each step
either advances one position or jumps past a match, so `cs.length` fuel
always suffices. -/
def findAllAux (res filt : String) : Nat → List Char → List String
  | 0, _ => []
  | _, [] => []
  | fuel + 1, c :: rest =>
    match matchFilePatternAt res filt (c :: rest) with
    | some m => String.mk m :: findAllAux res filt fuel (List.drop (m.length - 1) rest)
    | none => findAllAux res filt fuel rest

/-- `file_pattern.findall` on a character list: the non-overlapping matches
from left to right. -/
def findAllFilePattern (res filt : String) (cs : List Char) : List String :=
  findAllAux res filt cs.length cs

/-- The anchor loop of `scrape_directory`: for every link with an `href`, if
the pattern matches somewhere in the `href`, append the matched filename
(unconditionally — no deduplication here). -/
def anchorScan (res filt : String) : List String → List String
  | [] => []
  | href :: rest =>
    match searchFilePattern res filt href.data with
    | some filename => filename :: anchorScan res filt rest
    | none => anchorScan res filt rest

/-- The raw-text merge loop of `scrape_directory`: append each `findall`
match that is not already in the list (added-if-absent). -/
def addIfAbsent (seen : List String) : List String → List String
  | [] => seen
  | m :: rest => if m ∈ seen then addIfAbsent seen rest else addIfAbsent (seen ++ [m]) rest

/-- `DirectoryScraper.scrape_directory` given the directory GET's outcome:
404 and every other non-200 status give `[]` (as does a requests
exception); on 200 the anchor matches and the raw-text matches are merged
and sorted.  Python's `sorted` is a stable ascending sort, which for the
total order on strings is extensionally insertion sort. -/
def scrape_directory (scraper : DirectoryScraper) (resp : ScrapeResponse) :
    List String :=
  match resp with
  | .exc _ => []
  | .status code page =>
    if code = 404 then []
    else if code ≠ 200 then []
    else
      let anchor_files := anchorScan scraper.resolution scraper.solar_filter page.anchors
      let text_matches := findAllFilePattern scraper.resolution scraper.solar_filter
        page.text.data
      let image_files := addIfAbsent anchor_files text_matches
      sortedStrings image_files

/-- `DirectoryScraper.filter_new_images`, with the storage dependency
injected as the existence predicate `storage_organizer.file_exists`
(argument order `filename, date` as in the call). -/
def filter_new_images (storageExists : String → PyDateTime → Bool) :
    List (PyDateTime × String) → List (PyDateTime × String)
  | [] => []
  | (date, filename) :: rest =>
    if !storageExists filename date then
      (date, filename) :: filter_new_images storageExists rest
    else
      filter_new_images storageExists rest

theorem lexLe_total : ∀ as bs : List Char, lexLe as bs = true ∨ lexLe bs as = true := by
  intro as
  induction as with
  | nil => intro bs; left; rfl
  | cons a as2 ih =>
    intro bs
    cases bs with
    | nil => right; rfl
    | cons b bs2 =>
      by_cases h1 : a.toNat < b.toNat
      · left; simp [lexLe, h1]
      · by_cases h2 : b.toNat < a.toNat
        · right; simp [lexLe, h1, h2]
        · rcases ih bs2 with h | h
          · left; simp [lexLe, h1, h2, h]
          · right; simp [lexLe, h1, h2, h]

theorem lexLe_trans : ∀ as bs cs : List Char,
    lexLe as bs = true → lexLe bs cs = true → lexLe as cs = true := by
  intro as
  induction as with
  | nil => intro bs cs h1 h2; rfl
  | cons a as2 ih =>
    intro bs cs h1 h2
    cases bs with
    | nil => simp [lexLe] at h1
    | cons b bs2 =>
      cases cs with
      | nil => simp [lexLe] at h2
      | cons c cs2 =>
        simp only [lexLe] at h1 h2 ⊢
        by_cases hab1 : a.toNat < b.toNat
        · by_cases hbc1 : b.toNat < c.toNat
          · simp [show a.toNat < c.toNat from by omega]
          · by_cases hbc2 : c.toNat < b.toNat
            · simp [hbc1, hbc2] at h2
            · simp [show a.toNat < c.toNat from by omega]
        · by_cases hab2 : b.toNat < a.toNat
          · simp [hab1, hab2] at h1
          · by_cases hbc1 : b.toNat < c.toNat
            · simp [show a.toNat < c.toNat from by omega]
            · by_cases hbc2 : c.toNat < b.toNat
              · simp [hbc1, hbc2] at h2
              · simp only [hab1, hbc1, if_false] at h1 h2
                simp only [hab2, hbc2, if_false] at h1 h2
                simp [show ¬ a.toNat < c.toNat from by omega,
                  show ¬ c.toNat < a.toNat from by omega, ih bs2 cs2 h1 h2]

theorem strLe_total (a b : String) : strLe a b = true ∨ strLe b a = true :=
  lexLe_total a.data b.data

theorem strLe_trans (a b c : String) (h1 : strLe a b = true)
    (h2 : strLe b c = true) : strLe a c = true :=
  lexLe_trans a.data b.data c.data h1 h2

theorem orderedInsertStr_perm (x : String) (l : List String) :
    List.Perm (orderedInsertStr x l) (x :: l) := by
  induction l with
  | nil => exact List.Perm.refl _
  | cons y ys ih =>
    by_cases h : strLe x y = true
    · simp [orderedInsertStr, h]
    · simp only [orderedInsertStr, h, if_false]
      exact (ih.cons y).trans (List.Perm.swap x y ys)

theorem sorted_orderedInsertStr (x : String) (l : List String)
    (h : StrSorted l) : StrSorted (orderedInsertStr x l) := by
  induction l with
  | nil => simp [orderedInsertStr, StrSorted]
  | cons y ys ih =>
    rw [StrSorted, List.pairwise_cons] at h
    obtain ⟨hy, hys⟩ := h
    by_cases hxy : strLe x y = true
    · rw [show orderedInsertStr x (y :: ys) = x :: y :: ys from by
        rw [orderedInsertStr, if_pos hxy]]
      refine List.pairwise_cons.mpr ⟨?_, List.pairwise_cons.mpr ⟨hy, hys⟩⟩
      intro z hz
      rcases List.mem_cons.mp hz with rfl | hz2
      · exact hxy
      · exact strLe_trans _ _ _ hxy (hy z hz2)
    · rw [show orderedInsertStr x (y :: ys) = y :: orderedInsertStr x ys from by
        rw [orderedInsertStr, if_neg hxy]]
      refine List.pairwise_cons.mpr ⟨?_, ih hys⟩
      intro z hz
      have hz' := (orderedInsertStr_perm x ys).mem_iff.mp hz
      rcases List.mem_cons.mp hz' with rfl | hz2
      · rcases strLe_total y z with h | h
        · exact h
        · exact absurd h hxy
      · exact hy z hz2

theorem sortedStrings_perm (l : List String) : List.Perm (sortedStrings l) l := by
  induction l with
  | nil => exact List.Perm.refl _
  | cons x xs ih =>
    exact (orderedInsertStr_perm x (sortedStrings xs)).trans (ih.cons x)

theorem sortedStrings_sorted (l : List String) : StrSorted (sortedStrings l) := by
  induction l with
  | nil => exact List.Pairwise.nil
  | cons x xs ih => exact sorted_orderedInsertStr x (sortedStrings xs) ih

theorem filter_new_images_eq_filter (ex : String → PyDateTime → Bool)
    (available : List (PyDateTime × String)) :
    filter_new_images ex available = available.filter (fun p => !ex p.2 p.1) := by
  induction available with
  | nil => rfl
  | cons q rest ih =>
    obtain ⟨date, filename⟩ := q
    by_cases h : ex filename date
    · simp [filter_new_images, h, List.filter_cons, ih]
    · simp [filter_new_images, h, List.filter_cons, ih]

/-- C4: `filter_new_images` returns exactly those tuples for which
`storage.file_exists(filename, date)` is false — the set difference of the
discovered list against the filesystem — preserving the original relative
order (a sublist), with no duplicates introduced and no omissions (per-tuple
multiplicity is preserved for the kept tuples and zero for dropped ones). -/
theorem claim_filter_new_images (ex : String → PyDateTime → Bool)
    (available : List (PyDateTime × String)) :
    filter_new_images ex available = available.filter (fun p => !ex p.2 p.1) ∧
      (filter_new_images ex available).Sublist available ∧
      (∀ p, p ∈ filter_new_images ex available ↔ p ∈ available ∧ ex p.2 p.1 = false) ∧
      (∀ p, (filter_new_images ex available).count p =
        if ex p.2 p.1 = true then 0 else available.count p) := by
  have hf := filter_new_images_eq_filter ex available
  refine ⟨hf, ?_, ?_, ?_⟩
  · rw [hf]; exact List.filter_sublist _
  · intro p
    rw [hf, List.mem_filter]
    simp [Bool.not_eq_true']
  · intro p
    rw [hf]
    by_cases h : ex p.2 p.1 = true
    · rw [if_pos h, List.count_eq_zero]
      intro hmem
      rw [List.mem_filter] at hmem
      simp [h] at hmem
    · rw [if_neg h]
      apply List.count_filter
      simp [h]

theorem addIfAbsent_nodup (xs : List String) : ∀ seen : List String,
    seen.Nodup → (addIfAbsent seen xs).Nodup := by
  induction xs with
  | nil => intro seen h; exact h
  | cons m rest ih =>
    intro seen h
    by_cases hm : m ∈ seen
    · rw [show addIfAbsent seen (m :: rest) = addIfAbsent seen rest from by
        rw [addIfAbsent, if_pos hm]]
      exact ih seen h
    · rw [show addIfAbsent seen (m :: rest) = addIfAbsent (seen ++ [m]) rest from by
        rw [addIfAbsent, if_neg hm]]
      refine ih (seen ++ [m]) ?_
      simp [List.nodup_append, h, hm]

/-- C8 (amended): `scrape_directory` returns the empty list when the
directory page answers 404 or any other non-200 status; on 200 it returns
the merge of anchor-`href` matches and raw-page-text matches sorted
lexicographically, where the raw-text matches are added only if absent but
the anchor matches are appended unconditionally — so the result is
duplicate-free when the anchor matches are pairwise distinct, and only then
(the original claim's unconditional "no filename occurs twice" fails when
two anchors yield the same filename, see the counterexample). -/
theorem claim_scrape_directory (scraper : DirectoryScraper) (page : DirectoryPage)
    (code : Nat) :
    scrape_directory scraper (ScrapeResponse.status 404 page) = [] ∧
      (code ≠ 200 → scrape_directory scraper (ScrapeResponse.status code page) = []) ∧
      scrape_directory scraper (ScrapeResponse.status 200 page) =
        sortedStrings
          (addIfAbsent (anchorScan scraper.resolution scraper.solar_filter page.anchors)
            (findAllFilePattern scraper.resolution scraper.solar_filter
              page.text.data)) ∧
      StrSorted (scrape_directory scraper (ScrapeResponse.status 200 page)) ∧
      ((anchorScan scraper.resolution scraper.solar_filter page.anchors).Nodup →
        (scrape_directory scraper (ScrapeResponse.status 200 page)).Nodup) := by
  have h200 : scrape_directory scraper (ScrapeResponse.status 200 page) =
      sortedStrings
        (addIfAbsent (anchorScan scraper.resolution scraper.solar_filter page.anchors)
          (findAllFilePattern scraper.resolution scraper.solar_filter
            page.text.data)) := by
    simp [scrape_directory]
  refine ⟨rfl, ?_, h200, ?_, ?_⟩
  · intro hc
    by_cases h404 : code = 404
    · simp [scrape_directory, h404]
    · simp [scrape_directory, h404, hc]
  · rw [h200]
    exact sortedStrings_sorted _
  · intro hnd
    rw [h200]
    rw [List.Perm.nodup_iff (sortedStrings_perm _)]
    exact addIfAbsent_nodup _ _ hnd

/-- Concrete scraper configuration for witnesses. -/
def scraperW : DirectoryScraper := ⟨1, "1024", "0211"⟩

/-- A directory page with two distinct anchors and one raw-text match. -/
def pageW : DirectoryPage :=
  ⟨["20240302_001200_1024_0211.jpg", "20240301_001200_1024_0211.jpg"],
   "20240301_001200_1024_0211.jpg"⟩

/-- Witness for C8: a 500 page yields `[]`; a page with distinct anchors
yields a duplicate-free result. -/
theorem claim_scrape_directory_witness :
    scrape_directory scraperW (ScrapeResponse.status 500 pageW) = [] ∧
      (scrape_directory scraperW (ScrapeResponse.status 200 pageW)).Nodup :=
  ⟨(claim_scrape_directory scraperW pageW 500).2.1 (by decide),
   (claim_scrape_directory scraperW pageW 500).2.2.2.2 (by decide)⟩

/-- A page listing the same file behind two anchors (as Apache-style fancy
indexing does with an icon link plus a name link). -/
def dupPage : DirectoryPage :=
  ⟨["20240301_001200_1024_0211.jpg", "20240301_001200_1024_0211.jpg"], ""⟩

/-- Counterexample to C8 as stated: with the same filename in two anchors
the result contains that filename twice. -/
theorem claim_scrape_directory_counterexample :
    scrape_directory scraperW (ScrapeResponse.status 200 dupPage) =
        ["20240301_001200_1024_0211.jpg", "20240301_001200_1024_0211.jpg"] ∧
      ¬ (scrape_directory scraperW (ScrapeResponse.status 200 dupPage)).Nodup := by
  constructor <;> decide

end SolarDL
